import Mathlib

/-
Shallow embedding of the Cypress test-dashboard backend
(src/JuiceShop/cypress-api-implementation.js, an Express server).

Modelling conventions:
  - Timestamps (Date.now(), ISO start/end times) are modelled as Nat
    milliseconds; the code only creates them and compares them numerically.
  - JS objects used as keyed maps (testResultsStore.results,
    processedResults.suites, suite.tests) are association lists with JS
    object-assignment semantics: assigning an existing key updates the
    value in place, a new key is appended at the end.
  - JS strings are Lean Strings; String.prototype.includes /
    toLowerCase (ASCII range, the only range that occurs here) are given
    executable models below.
  - The subprocess and the HTTP transport are external: the POST handler's
    side effects are modelled as an explicit action trace, and the
    child process close event as a function from (exit code, optional
    parsed report file) to the next store state.
-/

/-- ASCII lower-casing of one character, the behaviour of
JS String.prototype.toLowerCase on the ASCII filenames and titles
this server handles. -/
def charLower (c : Char) : Char :=
  if 'A' ≤ c ∧ c ≤ 'Z' then Char.ofNat (c.toNat + 32) else c

/-- Model of JS String.prototype.toLowerCase (ASCII range). -/
def jsToLower (s : String) : String := String.mk (s.data.map charLower)

/-- Boolean prefix test on character lists. -/
def isPrefixB : List Char → List Char → Bool
  | [], _ => true
  | _ :: _, [] => false
  | a :: as, b :: bs => a == b && isPrefixB as bs

/-- Boolean contiguous-substring test on character lists. -/
def isInfixB (needle : List Char) : List Char → Bool
  | [] => isPrefixB needle []
  | c :: t => isPrefixB needle (c :: t) || isInfixB needle t

/-- Model of JS String.prototype.includes: `strIncludes s sub` is
`s.includes(sub)`. -/
def strIncludes (s sub : String) : Bool := isInfixB sub.data s.data

/-- Last path segment of `p`, the behaviour of path.basename on the
report file paths this server sees (none of which end in a slash). -/
def lastSegment : List Char → List Char → List Char
  | [], acc => acc.reverse
  | c :: t, acc => if c = '/' then lastSegment t [] else lastSegment t (c :: acc)

/-- Model of path.basename. -/
def basename (p : String) : String := String.mk (lastSegment p.data [])

/-- Scan (reversed characters) across the candidate extension: consume
non-dot non-slash characters until a dot, returning what precedes the
dot; none when a slash or the start of the string is hit first. -/
def afterDot : List Char → Option (List Char)
  | [] => none
  | c :: t => if c = '.' then some t else if c = '/' then none else afterDot t

/-- Model of `s.replace(/\.[^\x2f.]+$/, '')`: strip a final extension of
one or more non-dot non-slash characters introduced by a dot. -/
def stripExt (s : String) : String :=
  match s.data.reverse with
  | [] => s
  | c :: t =>
    if c = '.' ∨ c = '/' then s
    else match afterDot t with
      | some rest => String.mk rest.reverse
      | none => s

/-- Characters JS `-`/`_` to space replacement maps, for formatName. -/
def dashToSpace (c : Char) : Char := if c = '-' ∨ c = '_' then ' ' else c

/-- ASCII upper-casing of one character (JS toUpperCase on this data). -/
def charUpper (c : Char) : Char :=
  if 'a' ≤ c ∧ c ≤ 'z' then Char.ofNat (c.toNat - 32) else c

/-- Split a character list on every space, the behaviour of
JS String.prototype.split(' '). -/
def splitSp : List Char → List (List Char)
  | [] => [[]]
  | c :: t =>
    match splitSp t with
    | [] => [[]]
    | w :: ws => if c = ' ' then [] :: w :: ws else (c :: w) :: ws

/-- Capitalize the first character of a word
(JS `word.charAt(0).toUpperCase() + word.slice(1)`). -/
def capWord : List Char → List Char
  | [] => []
  | c :: t => charUpper c :: t

/-- Model of formatName: replace dashes and underscores by spaces,
capitalize each space-separated word, append " Tests". -/
def formatName (id : String) : String :=
  String.mk (List.intercalate [' '] ((splitSp (id.data.map dashToSpace)).map capWord))
    ++ " Tests"

/-- Model of getCategoryFromFilename: ordered keyword checks on the
lower-cased filename, first match wins, default "Functional". -/
def getCategoryFromFilename (filename : String) : String :=
  let l := jsToLower filename
  if strIncludes l "login" || strIncludes l "auth" then "Authentication"
  else if strIncludes l "user" then "User Management"
  else if strIncludes l "cart" || strIncludes l "basket" then "Shopping Cart"
  else if strIncludes l "product" then "Products"
  else if strIncludes l "api" then "API"
  else if strIncludes l "security" || strIncludes l "xss" || strIncludes l "injection" then "Security"
  else if strIncludes l "checkout" then "Checkout"
  else "Functional"

/-- Model of getCategoryFromContext: the same ordered keyword checks
applied to the lower-cased test context (full title). -/
def getCategoryFromContext (context : String) : String :=
  let l := jsToLower context
  if strIncludes l "login" || strIncludes l "auth" then "Authentication"
  else if strIncludes l "user" then "User Management"
  else if strIncludes l "cart" || strIncludes l "basket" then "Shopping Cart"
  else if strIncludes l "product" then "Products"
  else if strIncludes l "api" then "API"
  else if strIncludes l "security" || strIncludes l "xss" || strIncludes l "injection" then "Security"
  else if strIncludes l "checkout" then "Checkout"
  else "Functional"

/-- The spec's ordered keyword table (§4.1): keyword alternatives in
check order, each with its category. -/
def keywordTable : List (List String × String) :=
  [ (["login", "auth"], "Authentication"),
    (["user"], "User Management"),
    (["cart", "basket"], "Shopping Cart"),
    (["product"], "Products"),
    (["api"], "API"),
    (["security", "xss", "injection"], "Security"),
    (["checkout"], "Checkout") ]

/-- First-match lookup through an ordered keyword table, default
"Functional" (spec-side formulation of the category rule). -/
def tableLookup (l : String) : List (List String × String) → String
  | [] => "Functional"
  | (ks, c) :: t => if ks.any (fun k => strIncludes l k) then c else tableLookup l t

/-- Category of a string according to the spec's ordered keyword table,
matched on the lower-cased input, first match winning. -/
def specCategoryOf (s : String) : String := tableLookup (jsToLower s) keywordTable

/-- Run lifecycle status (`running | completed | error`). -/
inductive RunStatus where
  | running
  | completed
  | error
deriving DecidableEq

/-- Outcome status of one executed test. -/
inductive TestStatus where
  | passed
  | failed
  | skipped
deriving DecidableEq

/-- Whether a run status is terminal (spec glossary: completed or error). -/
def isTerminal : RunStatus → Bool
  | RunStatus.running => false
  | RunStatus.completed => true
  | RunStatus.error => true

/-- Aggregate counters of a run: total/passed/failed/skipped tests and
cumulative duration in milliseconds. -/
structure Summary where
  total : Nat
  passed : Nat
  failed : Nat
  skipped : Nat
  duration : Nat
deriving DecidableEq

/-- The all-zero summary a fresh run record starts with. -/
def zeroSummary : Summary := ⟨0, 0, 0, 0, 0⟩

/-- Error detail of a failed test in the raw report (err.message /
err.stack). -/
structure RawErr where
  message : String
  stack : String
deriving DecidableEq

/-- One test entry of the Mochawesome report: title, fullTitle, pass and
fail flags, optional duration, optional error, source code text. -/
structure RawTest where
  title : String
  fullTitle : String
  pass : Bool
  fail : Bool
  duration : Option Nat
  err : Option RawErr
  code : String
deriving DecidableEq

/-- One nested suite block of a report file entry: its tests array. -/
structure RawSuite where
  tests : List RawTest
deriving DecidableEq

/-- One per-file result block of the report: the spec file path and its
nested suites array. -/
structure RawResult where
  file : String
  suites : List RawSuite
deriving DecidableEq

/-- The raw Mochawesome report: its results array. -/
structure RawReport where
  results : List RawResult
deriving DecidableEq

/-- Normalized detail stored per test under a suite aggregate. -/
structure TestDetail where
  name : String
  fullTitle : String
  status : TestStatus
  duration : Nat
  error : Option RawErr
  code : String
  category : String
deriving DecidableEq

/-- Per-suite aggregate of the normalized results. -/
structure SuiteAgg where
  name : String
  file : String
  passed : Nat
  failed : Nat
  skipped : Nat
  tests : List (String × TestDetail)
deriving DecidableEq

/-- Result of processTestResults: global summary plus per-suite map. -/
structure ProcessedResults where
  summary : Summary
  suites : List (String × SuiteAgg)
deriving DecidableEq

/-- Lookup in a JS-object-like association list. -/
def alistGet {α : Type} : List (String × α) → String → Option α
  | [], _ => none
  | (k, v) :: t, key => if k = key then some v else alistGet t key

/-- JS object assignment `o[key] = v`: update in place when the key
exists, append otherwise. -/
def alistSet {α : Type} : List (String × α) → String → α → List (String × α)
  | [], key, v => [(key, v)]
  | (k, w) :: t, key, v => if k = key then (key, v) :: t else (k, w) :: alistSet t key v

/-- Apply `f` to the value at `key` when present, identity otherwise. -/
def alistUpdate {α : Type} : List (String × α) → String → (α → α) → List (String × α)
  | [], _, _ => []
  | (k, w) :: t, key, f => if k = key then (key, f w) :: t else (k, w) :: alistUpdate t key f

/-- Status of one raw test by precedence:
`test.pass ? 'passed' : test.fail ? 'failed' : 'skipped'`. -/
def statusOf (t : RawTest) : TestStatus :=
  if t.pass then TestStatus.passed
  else if t.fail then TestStatus.failed
  else TestStatus.skipped

/-- Summary update for one test: total incremented, the counter of the
test's status incremented, duration accumulated
(`test.duration || 0`). -/
def bumpSummary (s : Summary) (st : TestStatus) (d : Nat) : Summary :=
  { total := s.total + 1,
    passed := if st = TestStatus.passed then s.passed + 1 else s.passed,
    failed := if st = TestStatus.failed then s.failed + 1 else s.failed,
    skipped := if st = TestStatus.skipped then s.skipped + 1 else s.skipped,
    duration := s.duration + d }

/-- Suite-aggregate counter update for one test's status. -/
def bumpSuite (sa : SuiteAgg) (st : TestStatus) : SuiteAgg :=
  { sa with
    passed := if st = TestStatus.passed then sa.passed + 1 else sa.passed,
    failed := if st = TestStatus.failed then sa.failed + 1 else sa.failed,
    skipped := if st = TestStatus.skipped then sa.skipped + 1 else sa.skipped }

/-- Normalized per-test detail record built from one raw test. -/
def mkTestDetail (t : RawTest) : TestDetail :=
  { name := t.title,
    fullTitle := t.fullTitle,
    status := statusOf t,
    duration := t.duration.getD 0,
    error := t.err,
    code := t.code,
    category := getCategoryFromContext t.fullTitle }

/-- Test identifier scheme of the normalizer:
`testId = suiteId + "-" + index`. -/
def mkTestId (suiteId : String) (idx : Nat) : String :=
  suiteId ++ "-" ++ toString idx

/-- Body of the innermost loop of processTestResults once the test
identifier string has been computed: bump summary and suite counters and
store the test detail under that identifier. -/
def processTestWithId (suiteId : String) (acc : ProcessedResults) (testId : String)
    (t : RawTest) : ProcessedResults :=
  let st := statusOf t
  { summary := bumpSummary acc.summary st (t.duration.getD 0),
    suites := alistUpdate acc.suites suiteId (fun sa =>
      let sa1 := bumpSuite sa st
      { sa1 with tests := alistSet sa1.tests testId (mkTestDetail t) }) }

/-- Innermost loop body of processTestResults:
`suite.tests.forEach((test, index) => ...)` with
`testId = suiteId + "-" + index`. -/
def processOneTest (suiteId : String) (acc : ProcessedResults) (idx : Nat)
    (t : RawTest) : ProcessedResults :=
  processTestWithId suiteId acc (mkTestId suiteId idx) t

/-- Middle loop of processTestResults: iterate one nested suite's tests
with their indices within that nested suite. -/
def processNestedSuite (suiteId : String) (acc : ProcessedResults) (s : RawSuite) :
    ProcessedResults :=
  s.tests.enum.foldl (fun a p => processOneTest suiteId a p.1 p.2) acc

/-- Fresh per-suite aggregate created the first time a suite identifier
is seen. -/
def newSuiteAgg (suiteId fileName : String) : SuiteAgg :=
  { name := formatName suiteId,
    file := fileName,
    passed := 0,
    failed := 0,
    skipped := 0,
    tests := [] }

/-- Outer loop body of processTestResults: derive the suite identifier
from the file path, create the suite aggregate when absent, then process
every nested suite of the block. -/
def processResultBlock (acc : ProcessedResults) (r : RawResult) : ProcessedResults :=
  let fileName := basename r.file
  let suiteId := stripExt fileName
  let acc1 :=
    if (alistGet acc.suites suiteId).isNone then
      { acc with suites := alistSet acc.suites suiteId (newSuiteAgg suiteId fileName) }
    else acc
  r.suites.foldl (processNestedSuite suiteId) acc1

/-- Model of processTestResults: fold the report's per-file blocks into
a zeroed summary and an empty suites map. -/
def processTestResults (raw : RawReport) : ProcessedResults :=
  raw.results.foldl processResultBlock ⟨zeroSummary, []⟩

/-- Configuration captured at run creation: requested suites, browser,
mode. -/
structure RunConfig where
  suites : List String
  browser : String
  mode : String
deriving DecidableEq

/-- One test-run record of the registry. -/
structure RunRecord where
  id : String
  status : RunStatus
  startTime : Nat
  endTime : Option Nat
  config : RunConfig
  summary : Summary
  suites : List (String × SuiteAgg)
deriving DecidableEq

/-- The in-memory registry: testResultsStore.results, a JS object keyed
by run identifier. -/
structure Store where
  results : List (String × RunRecord)
deriving DecidableEq

/-- The registry at process start: no runs. -/
def emptyStore : Store := ⟨[]⟩

/-- Run identifier scheme of the POST handler:
`runId = "run_" + Date.now()`; the clock value is the Nat argument. -/
def mkRunId (now : Nat) : String := "run_" ++ toString now

/-- Model of testResultsStore.createRun: insert a fresh record with
status running, start time now, null end time, zeroed summary and empty
suites map, and return it. -/
def createRun (st : Store) (runId : String) (config : RunConfig) (now : Nat) :
    Store × RunRecord :=
  let r : RunRecord :=
    { id := runId,
      status := RunStatus.running,
      startTime := now,
      endTime := none,
      config := config,
      summary := zeroSummary,
      suites := [] }
  (⟨alistSet st.results runId r⟩, r)

/-- Model of testResultsStore.getRun. -/
def getRun (st : Store) (runId : String) : Option RunRecord :=
  alistGet st.results runId

/-- Model of testResultsStore.updateRunStatus: no-op on an unknown
identifier; otherwise set the status, and when it is completed or error
also set the end time to the current time. -/
def updateRunStatus (st : Store) (runId : String) (status : RunStatus) (now : Nat) :
    Store :=
  match alistGet st.results runId with
  | none => st
  | some r =>
    ⟨alistSet st.results runId
      { r with
        status := status,
        endTime :=
          if status = RunStatus.completed ∨ status = RunStatus.error then some now
          else r.endTime }⟩

/-- JS number as it reaches Array.prototype.slice here: either NaN
(parseInt on a non-numeric string) or an integer. -/
inductive JSNum where
  | nan
  | int (n : Int)
deriving DecidableEq

/-- Model of `arr.slice(0, e)`: NaN converts to 0; a negative end counts
from the end of the array; otherwise take the first e elements. -/
def jsSliceTo {α : Type} (l : List α) (e : JSNum) : List α :=
  match e with
  | JSNum.nan => l.take 0
  | JSNum.int n =>
    if n < 0 then l.take (max ((l.length : Int) + n) 0).toNat else l.take n.toNat

/-- Sort relation of getRecentRuns: the comparator
`(a, b) => new Date(b.startTime) - new Date(a.startTime)` orders records
by descending start time. -/
def startDesc (a b : RunRecord) : Prop := b.startTime ≤ a.startTime

instance : DecidableRel startDesc := fun a b => Nat.decLe b.startTime a.startTime

instance : IsTotal RunRecord startDesc :=
  ⟨fun a b => (Nat.le_total a.startTime b.startTime).symm⟩

instance : IsTrans RunRecord startDesc :=
  ⟨fun _ _ _ hab hbc => le_trans hbc hab⟩

/-- Model of testResultsStore.getRecentRuns: all records, sorted by
start time descending, sliced to the limit. -/
def getRecentRuns (st : Store) (limit : JSNum) : List RunRecord :=
  jsSliceTo (List.insertionSort startDesc (st.results.map Prod.snd)) limit

/-- Leading decimal digits of a character list. -/
def leadingDigits : List Char → List Char
  | [] => []
  | c :: t => if c.isDigit then c :: leadingDigits t else []

/-- Numeric value of a digit list. -/
def digitsToNat (ds : List Char) : Nat :=
  ds.foldl (fun a c => 10 * a + (c.toNat - 48)) 0

/-- Signed integer from the leading digits, NaN when there are none. -/
def jsParseIntCore (sign : Int) (cs : List Char) : JSNum :=
  match leadingDigits cs with
  | [] => JSNum.nan
  | ds => JSNum.int (sign * (digitsToNat ds : Int))

/-- Whitespace skipped by parseInt. -/
def isWsChar (c : Char) : Bool := c = ' ' ∨ c = '\t' ∨ c = '\n' ∨ c = '\r'

/-- Model of JS parseInt(s, 10): skip leading whitespace, read an
optional sign and then leading decimal digits; NaN when no digit
follows. -/
def jsParseInt (s : String) : JSNum :=
  match s.data.dropWhile isWsChar with
  | '-' :: t => jsParseIntCore (-1) t
  | '+' :: t => jsParseIntCore 1 t
  | cs => jsParseIntCore 1 cs

/-- Model of the GET /api/tests/recent handler: an absent limit query
parameter defaults to the number 10 (which parseInt maps to 10); a
present one is a string passed through parseInt; the parsed value goes
to getRecentRuns. -/
def recentEndpoint (st : Store) (limitParam : Option String) : List RunRecord :=
  let limit :=
    match limitParam with
    | none => JSNum.int 10
    | some s => jsParseInt s
  getRecentRuns st limit

/-- Model of the spec-path option of the Cypress command: set only when
suites were requested and mode is not "all". -/
def cypressSpecOption (suites : List String) (mode : String) : String :=
  if suites.length > 0 ∧ mode ≠ "all" then
    "--spec \"" ++ String.intercalate "," (suites.map (fun s => "cypress/integration/" ++ s)) ++ "\""
  else ""

/-- Model of the Cypress command line built by the POST handler. -/
def cypressCommand (browser : String) (specOption : String) : String :=
  "npx cypress run --browser " ++ browser ++ " " ++ specOption

/-- Observable side effects of the synchronous part of the POST
/api/tests/run handler, in program order. -/
inductive HandlerAction where
  | register (runId : String) (config : RunConfig)
  | respond (runId : String) (status : RunStatus)
  | launch (cmd : String)
deriving DecidableEq

/-- Effect trace of the synchronous part of the POST /api/tests/run
handler, in the statement order of the source: create the run record,
send the JSON response, then launch the subprocess. The close-event
handling is a separate later event (handleClose). -/
def postTestsRunTrace (suites : List String) (browser mode : String) (now : Nat) :
    List HandlerAction :=
  let runId := mkRunId now
  [ HandlerAction.register runId ⟨suites, browser, mode⟩,
    HandlerAction.respond runId RunStatus.running,
    HandlerAction.launch (cypressCommand browser (cypressSpecOption suites mode)) ]

/-- Merge step of the close handler on the success path:
`results[runId] = { ...results[runId], ...processedResults,
status: 'completed' }`. The handler only runs for the run created by the
same request, so the identifier is present; the absent case is a
no-op. -/
def mergeResults (st : Store) (runId : String) (p : ProcessedResults) : Store :=
  match alistGet st.results runId with
  | none => st
  | some r =>
    ⟨alistSet st.results runId
      { r with summary := p.summary, suites := p.suites, status := RunStatus.completed }⟩

/-- Model of the childProcess close handler: nonzero exit marks the run
error and stops; on zero exit, a present (well-formed) report file is
normalized and merged with status completed, an absent one marks the run
completed with its summary untouched. -/
def handleClose (st : Store) (runId : String) (code : Int) (report : Option RawReport)
    (now : Nat) : Store :=
  if code ≠ 0 then updateRunStatus st runId RunStatus.error now
  else
    match report with
    | some raw => mergeResults st runId (processTestResults raw)
    | none => updateRunStatus st runId RunStatus.completed now

/-- Looking up the key just assigned yields the assigned value. -/
theorem alistGet_alistSet_self {α : Type} (l : List (String × α)) (k : String) (v : α) :
    alistGet (alistSet l k v) k = some v := by
  induction l with
  | nil => simp [alistSet, alistGet]
  | cons h t ih =>
    obtain ⟨k', w⟩ := h
    by_cases hk : k' = k <;> simp [alistSet, alistGet, hk, ih]

/-- The record visible right after createRun is the fresh running record. -/
theorem getRun_createRun (st : Store) (runId : String) (cfg : RunConfig) (now : Nat) :
    getRun (createRun st runId cfg now).1 runId =
      some { id := runId, status := RunStatus.running, startTime := now, endTime := none,
             config := cfg, summary := zeroSummary, suites := [] } := by
  simp [getRun, createRun, alistGet_alistSet_self]

/-- Effect of updateRunStatus on the targeted record when it exists. -/
theorem getRun_updateRunStatus (st : Store) (runId : String) (r : RunRecord)
    (s : RunStatus) (now : Nat) (h : getRun st runId = some r) :
    getRun (updateRunStatus st runId s now) runId =
      some { r with
        status := s,
        endTime :=
          if s = RunStatus.completed ∨ s = RunStatus.error then some now
          else r.endTime } := by
  unfold getRun at h
  unfold updateRunStatus getRun
  rw [h]
  simp [alistGet_alistSet_self]

/-- Effect of mergeResults on the targeted record when it exists. -/
theorem getRun_mergeResults (st : Store) (runId : String) (r : RunRecord)
    (p : ProcessedResults) (h : getRun st runId = some r) :
    getRun (mergeResults st runId p) runId =
      some { r with
        summary := p.summary,
        suites := p.suites,
        status := RunStatus.completed } := by
  unfold getRun at h
  unfold mergeResults getRun
  rw [h]
  simp [alistGet_alistSet_self]

/-- C2: on nonzero runner exit the run is marked error and its summary
stays all-zero with an empty suites map — no report parsing or merging
happens, whether or not a report exists. -/
theorem runner_nonzero_exit_marks_error_zero_summary
    (st0 : Store) (runId : String) (cfg : RunConfig) (t1 : Nat) (code : Int)
    (rep : Option RawReport) (t2 : Nat) (hc : code ≠ 0) :
    ∃ r : RunRecord,
      getRun (handleClose (createRun st0 runId cfg t1).1 runId code rep t2) runId = some r ∧
      r.status = RunStatus.error ∧ r.summary = zeroSummary ∧ r.suites = [] := by
  have h1 := getRun_createRun st0 runId cfg t1
  unfold handleClose
  rw [if_pos hc]
  exact ⟨_, getRun_updateRunStatus _ runId _ RunStatus.error t2 h1, rfl, rfl, rfl⟩

/-- Witness for C2 at a concrete run and exit code 1. -/
theorem runner_nonzero_exit_marks_error_zero_summary_witness :
    ∃ r : RunRecord,
      getRun (handleClose (createRun emptyStore "run_5" ⟨[], "chrome", "all"⟩ 5).1
        "run_5" 1 none 9) "run_5" = some r ∧
      r.status = RunStatus.error ∧ r.summary = zeroSummary ∧ r.suites = [] :=
  runner_nonzero_exit_marks_error_zero_summary emptyStore "run_5" ⟨[], "chrome", "all"⟩
    5 1 none 9 (by decide)

/-- C6: a zero exit code with no report file at the expected path marks
the run completed while its summary stays all-zero. -/
theorem missing_report_soft_success
    (st0 : Store) (runId : String) (cfg : RunConfig) (t1 t2 : Nat) :
    ∃ r : RunRecord,
      getRun (handleClose (createRun st0 runId cfg t1).1 runId 0 none t2) runId = some r ∧
      r.status = RunStatus.completed ∧ r.summary = zeroSummary := by
  have h1 := getRun_createRun st0 runId cfg t1
  unfold handleClose
  rw [if_neg (by decide : ¬(0 : Int) ≠ 0)]
  exact ⟨_, getRun_updateRunStatus _ runId _ RunStatus.completed t2 h1, rfl, rfl⟩

/-- Configuration of the first same-millisecond request (C1 scenario). -/
def collideCfgA : RunConfig := ⟨["login.spec.js"], "chrome", "selected"⟩

/-- Configuration of the second same-millisecond request (C1 scenario). -/
def collideCfgB : RunConfig := ⟨["checkout.spec.js"], "firefox", "selected"⟩

/-- Registry after two createRun calls whose Date.now() both returned
the millisecond 1730000000000, as the POST handler performs them. -/
def twoCreatesSameMs : Store :=
  (createRun (createRun emptyStore (mkRunId 1730000000000) collideCfgA 1730000000000).1
    (mkRunId 1730000000000) collideCfgB 1730000000000).1

/-- C1: two run-creation calls in the same millisecond allocate the
identical identifier run_1730000000000, so the registry ends up with a
single record and the second call's record has overwritten the
first's — the code violates the never-collide claim. -/
theorem run_id_collision_same_millisecond :
    twoCreatesSameMs.results.length = 1 ∧
    (getRun twoCreatesSameMs (mkRunId 1730000000000)).map RunRecord.config =
      some collideCfgB := by
  decide

/-- The identifier both same-millisecond runs received. -/
def collidedRunKey : String := mkRunId 1730000000000

/-- Registry after the first collided run's subprocess exits with code 1:
its close handler marks the shared record error (terminal). -/
def stAfterFirstClose : Store :=
  handleClose twoCreatesSameMs collidedRunKey 1 none 1730000000050

/-- Registry after the second collided run's subprocess then exits with
code 0 and no report file: its close handler targets the same key and
marks the already-terminal record completed. -/
def stAfterSecondClose : Store :=
  handleClose stAfterFirstClose collidedRunKey 0 none 1730000000060

/-- C3 counterexample: with two same-millisecond runs sharing one
identifier, both subprocess close handlers target the same record;
after the first close the record is terminal with status error, yet the
second close transitions it to completed — a terminal record does
transition to another status, refuting the claim's never-transitions
clause on a reachable history. -/
theorem terminal_status_not_absorbing_counterexample :
    (getRun stAfterFirstClose collidedRunKey).map RunRecord.status =
      some RunStatus.error ∧
    (getRun stAfterFirstClose collidedRunKey).map (fun r => isTerminal r.status) =
      some true ∧
    (getRun stAfterSecondClose collidedRunKey).map RunRecord.status =
      some RunStatus.completed := by
  decide

/-- One subprocess close event: exit code, report file found (already
parsed) or absent, and the time the handler runs. -/
structure CloseEvent where
  code : Int
  report : Option RawReport
  time : Nat

/-- Apply a sequence of close events for one run identifier to the
registry, each through the source's close handler. -/
def applyCloses (runId : String) : Store → List CloseEvent → Store
  | st, [] => st
  | st, e :: rest => applyCloses runId (handleClose st runId e.code e.report e.time) rest

/-- Every close-handling path leaves the targeted record (when present)
in a terminal status. -/
theorem getRun_handleClose_terminal (st : Store) (runId : String) (code : Int)
    (rep : Option RawReport) (now : Nat) (r : RunRecord) (h : getRun st runId = some r) :
    ∃ r2 : RunRecord,
      getRun (handleClose st runId code rep now) runId = some r2 ∧
      isTerminal r2.status = true := by
  by_cases hc : code ≠ 0
  · unfold handleClose
    rw [if_pos hc]
    exact ⟨_, getRun_updateRunStatus st runId r RunStatus.error now h, rfl⟩
  · cases rep with
    | none =>
      unfold handleClose
      rw [if_neg hc]
      exact ⟨_, getRun_updateRunStatus st runId r RunStatus.completed now h, rfl⟩
    | some raw =>
      unfold handleClose
      rw [if_neg hc]
      exact ⟨_, getRun_mergeResults st runId r (processTestResults raw) h, rfl⟩

/-- A present record stays present and terminal across any further
close events on its identifier. -/
theorem applyCloses_keeps_terminal (runId : String) (evs : List CloseEvent) :
    ∀ (st : Store) (r : RunRecord),
      getRun st runId = some r → isTerminal r.status = true →
      ∃ r2 : RunRecord,
        getRun (applyCloses runId st evs) runId = some r2 ∧
        isTerminal r2.status = true := by
  induction evs with
  | nil => intro st r h ht; exact ⟨r, h, ht⟩
  | cons e rest ih =>
    intro st r h _
    obtain ⟨r2, h2, ht2⟩ := getRun_handleClose_terminal st runId e.code e.report e.time r h
    exact ih _ r2 h2 ht2

/-- C3 amended: a record starts at the non-terminal status running and,
once its first close event is handled, is terminal after every further
close event on its identifier — the terminal statuses are absorbing as
a set, although a collided identifier's second close event may switch
the record between terminal statuses (see the counterexample). -/
theorem run_status_reaches_and_stays_terminal
    (st0 : Store) (runId : String) (cfg : RunConfig) (t1 : Nat)
    (e : CloseEvent) (evs : List CloseEvent) :
    ∃ r1 r2 : RunRecord,
      getRun (createRun st0 runId cfg t1).1 runId = some r1 ∧
      r1.status = RunStatus.running ∧
      isTerminal r1.status = false ∧
      getRun (applyCloses runId (createRun st0 runId cfg t1).1 (e :: evs)) runId = some r2 ∧
      isTerminal r2.status = true := by
  have h1 := getRun_createRun st0 runId cfg t1
  obtain ⟨rm, hm, hmt⟩ :=
    getRun_handleClose_terminal (createRun st0 runId cfg t1).1 runId e.code e.report e.time _ h1
  obtain ⟨r2, h2, h2t⟩ := applyCloses_keeps_terminal runId evs _ rm hm hmt
  exact ⟨_, r2, h1, rfl, rfl, h2, h2t⟩

/-- A predicate preserved by every step of a fold is preserved by the
whole fold. -/
theorem foldl_preserves {β γ : Type} (Inv : γ → Prop) (f : γ → β → γ)
    (h : ∀ a b, Inv a → Inv (f a b)) :
    ∀ (l : List β) (acc : γ), Inv acc → Inv (List.foldl f acc l) := by
  intro l
  induction l with
  | nil => intro acc ha; exact ha
  | cons b t ih =>
    intro acc ha
    exact ih (f acc b) (h acc b ha)

/-- Consistency of the summary counters: total equals the sum of the
three status counters. -/
def summaryConsistent (s : Summary) : Prop :=
  s.total = s.passed + s.failed + s.skipped

/-- bumpSummary keeps the counters consistent: it raises total by one
and exactly one status counter by one. -/
theorem summaryConsistent_bumpSummary (s : Summary) (st : TestStatus) (d : Nat)
    (h : summaryConsistent s) : summaryConsistent (bumpSummary s st d) := by
  unfold summaryConsistent at *
  cases st <;> simp [bumpSummary] <;> omega

/-- The one-test step touches the summary only through bumpSummary. -/
theorem summary_processTestWithId (suiteId : String) (acc : ProcessedResults)
    (testId : String) (t : RawTest) :
    (processTestWithId suiteId acc testId t).summary =
      bumpSummary acc.summary (statusOf t) (t.duration.getD 0) := rfl

/-- Summary-consistency invariant on intermediate normalizer states. -/
def procConsistent (p : ProcessedResults) : Prop := summaryConsistent p.summary

/-- The one-test step preserves summary consistency. -/
theorem procConsistent_processOneTest (suiteId : String) (acc : ProcessedResults)
    (idx : Nat) (t : RawTest) (h : procConsistent acc) :
    procConsistent (processOneTest suiteId acc idx t) :=
  summaryConsistent_bumpSummary acc.summary (statusOf t) (t.duration.getD 0) h

/-- Processing one nested suite preserves summary consistency. -/
theorem procConsistent_processNestedSuite (suiteId : String) (acc : ProcessedResults)
    (s : RawSuite) (h : procConsistent acc) :
    procConsistent (processNestedSuite suiteId acc s) :=
  foldl_preserves procConsistent _
    (fun a p ha => procConsistent_processOneTest suiteId a p.1 p.2 ha)
    s.tests.enum acc h

/-- Processing one per-file block preserves summary consistency: the
suite-initialization step leaves the summary untouched and each test
step preserves consistency. -/
theorem procConsistent_processResultBlock (acc : ProcessedResults) (r : RawResult)
    (h : procConsistent acc) : procConsistent (processResultBlock acc r) := by
  unfold processResultBlock
  refine foldl_preserves procConsistent _
    (fun a s ha => procConsistent_processNestedSuite _ a s ha) r.suites _ ?_
  by_cases hi : (alistGet acc.suites (stripExt (basename r.file))).isNone <;>
    simp only [hi, if_true, if_false, procConsistent] <;> exact h

/-- C5: the normalizer's summary always satisfies
total = passed + failed + skipped, and each test's status follows the
precedence pass flag, then fail flag, then skipped. -/
theorem normalizer_summary_consistent (raw : RawReport) :
    (processTestResults raw).summary.total =
      (processTestResults raw).summary.passed +
      (processTestResults raw).summary.failed +
      (processTestResults raw).summary.skipped ∧
    ∀ t : RawTest,
      (t.pass = true → statusOf t = TestStatus.passed) ∧
      (t.pass = false → t.fail = true → statusOf t = TestStatus.failed) ∧
      (t.pass = false → t.fail = false → statusOf t = TestStatus.skipped) := by
  constructor
  · exact foldl_preserves procConsistent processResultBlock
      procConsistent_processResultBlock raw.results ⟨zeroSummary, []⟩ rfl
  · intro t
    refine ⟨?_, ?_, ?_⟩ <;> intro h1 <;> try intro h2
    · simp [statusOf, h1]
    · simp [statusOf, h1, h2]
    · simp [statusOf, h1, h2]

/-- A passing test of the witness report. -/
def wTestPass : RawTest := ⟨"X", "S X", true, false, some 150, none, ""⟩

/-- A failing test of the witness report. -/
def wTestFail : RawTest := ⟨"Y", "S Y", false, true, some 3, some ⟨"m", "s"⟩, ""⟩

/-- A skipped test of the witness report. -/
def wTestSkip : RawTest := ⟨"Z", "S Z", false, false, none, none, ""⟩

/-- A small well-formed report exercising all three statuses. -/
def wReport : RawReport :=
  ⟨[⟨"cypress/integration/demo.spec.js", [⟨[wTestPass, wTestFail, wTestSkip]⟩]⟩]⟩

/-- Witness for C5 on a concrete report and concrete tests of each
status. -/
theorem normalizer_summary_consistent_witness :
    (processTestResults wReport).summary.total =
      (processTestResults wReport).summary.passed +
      (processTestResults wReport).summary.failed +
      (processTestResults wReport).summary.skipped ∧
    statusOf wTestPass = TestStatus.passed ∧
    statusOf wTestFail = TestStatus.failed ∧
    statusOf wTestSkip = TestStatus.skipped :=
  ⟨(normalizer_summary_consistent wReport).1,
   ((normalizer_summary_consistent wReport).2 wTestPass).1 rfl,
   ((normalizer_summary_consistent wReport).2 wTestFail).2.1 rfl rfl,
   ((normalizer_summary_consistent wReport).2 wTestSkip).2.2 rfl rfl⟩

/-- First test of the first nested suite of the C4 report. -/
def tAlpha : RawTest := ⟨"alpha", "S1 alpha", true, false, some 5, none, ""⟩

/-- Second test of the first nested suite of the C4 report. -/
def tBeta : RawTest := ⟨"beta", "S1 beta", false, true, some 7, none, ""⟩

/-- Only test of the second nested suite of the C4 report. -/
def tGamma : RawTest := ⟨"gamma", "S2 gamma", true, false, some 11, none, ""⟩

/-- A report with one file block containing two nested suites: two tests
in the first, one in the second — three distinct leaf tests in all. -/
def nestedTwoSuitesReport : RawReport :=
  ⟨[⟨"cypress/integration/a.spec.js", [⟨[tAlpha, tBeta]⟩, ⟨[tGamma]⟩]⟩]⟩

/-- C4 counterexample: on a file block with two nested suites the
indices restart at zero for the second nested suite, so the three leaf
tests receive only two identifiers — the key a.spec-0 ends up holding
the second nested suite's test (gamma, overwriting alpha) and no key
a.spec-2 exists, refuting the claim that indices continue across nested
suites and that every test of a suite id gets a distinct identifier. -/
theorem nested_suite_index_restarts_counterexample :
    (alistGet (processTestResults nestedTwoSuitesReport).suites "a.spec").map
        (fun sa => sa.tests.length) = some 2 ∧
    ((alistGet (processTestResults nestedTwoSuitesReport).suites "a.spec").bind
        (fun sa => alistGet sa.tests "a.spec-0")).map TestDetail.name = some "gamma" ∧
    ((alistGet (processTestResults nestedTwoSuitesReport).suites "a.spec").bind
        (fun sa => alistGet sa.tests "a.spec-2")) = none := by
  decide

/-- C4 amended: within every nested suite block the normalizer assigns
the identifiers suiteId-0 .. suiteId-(n-1) in order, restarting at zero
for each nested suite regardless of the accumulated state — the index
is the position within that nested suite's tests array, not within a
flattened per-suite order. -/
theorem nested_suite_ids_restart_per_suite (suiteId : String) (acc : ProcessedResults)
    (s : RawSuite) :
    processNestedSuite suiteId acc s =
      List.foldl (fun a p => processTestWithId suiteId a p.1 p.2) acc
        (((List.range s.tests.length).map (mkTestId suiteId)).zip s.tests) := by
  unfold processNestedSuite processOneTest
  rw [List.enum_eq_zip_range, List.zip_map_left, List.foldl_map]
  rfl

/-- getRecentRuns with a non-negative integer limit takes the first n
elements of the sorted run list. -/
theorem getRecentRuns_int_natCast (st : Store) (n : Nat) :
    getRecentRuns st (JSNum.int n) =
      (List.insertionSort startDesc (st.results.map Prod.snd)).take n := by
  have hn : ¬ (n : Int) < 0 := by omega
  simp [getRecentRuns, jsSliceTo, hn]

/-- One demo run record for the C7 witness registry. -/
def demoRun (i : Nat) : String × RunRecord :=
  (mkRunId i,
   { id := mkRunId i, status := RunStatus.running, startTime := i, endTime := none,
     config := ⟨[], "chrome", "all"⟩, summary := zeroSummary, suites := [] })

/-- A registry holding five runs with distinct start times. -/
def demoStore : Store := ⟨[demoRun 11, demoRun 12, demoRun 13, demoRun 14, demoRun 15]⟩

/-- C7: getRecentRuns returns the runs sorted by start time descending
and truncated to the limit; the endpoint's default limit is 10; on a
registry of five runs a limit of 3 yields exactly three runs. -/
theorem recent_runs_sorted_truncated (st : Store) (n : Nat) :
    List.Sorted startDesc (getRecentRuns st (JSNum.int n)) ∧
    (getRecentRuns st (JSNum.int n)).length = min n st.results.length ∧
    recentEndpoint st none = getRecentRuns st (JSNum.int 10) ∧
    (st.results.length = 5 → (getRecentRuns st (JSNum.int 3)).length = 3) := by
  have hsort := List.sorted_insertionSort startDesc (st.results.map Prod.snd)
  refine ⟨?_, ?_, rfl, ?_⟩
  · rw [getRecentRuns_int_natCast]
    exact List.Pairwise.sublist (List.take_sublist n _) hsort
  · rw [getRecentRuns_int_natCast, List.length_take, List.length_insertionSort,
      List.length_map]
  · intro h5
    have h3 : ¬ (3 : Int) < 0 := by decide
    simp [getRecentRuns, jsSliceTo, h3, List.length_take, List.length_insertionSort, h5]

/-- Witness for C7 on a concrete five-run registry with limit 3. -/
theorem recent_runs_sorted_truncated_witness :
    demoStore.results.length = 5 ∧ (getRecentRuns demoStore (JSNum.int 3)).length = 3 :=
  ⟨by decide, (recent_runs_sorted_truncated demoStore 3).2.2.2 (by decide)⟩

/-- C8: both category functions realize the spec's ordered keyword
table with first match winning, and the two example filenames classify
as Security and User Management respectively. -/
theorem category_inference_ordered_table :
    (∀ s : String, getCategoryFromFilename s = specCategoryOf s) ∧
    (∀ s : String, getCategoryFromContext s = specCategoryOf s) ∧
    getCategoryFromFilename "sql-injection.spec" = "Security" ∧
    getCategoryFromFilename "user-management.spec" = "User Management" := by
  refine ⟨?_, ?_, by decide, by decide⟩ <;> intro s <;>
    simp [getCategoryFromFilename, getCategoryFromContext, specCategoryOf, tableLookup,
      keywordTable, List.any_cons, List.any_nil, Bool.or_false, or_assoc]

/-- Predicate picking the register action of the handler trace. -/
def isRegisterAct : HandlerAction → Bool
  | HandlerAction.register _ _ => true
  | _ => false

/-- Predicate picking the respond action of the handler trace. -/
def isRespondAct : HandlerAction → Bool
  | HandlerAction.respond _ _ => true
  | _ => false

/-- Predicate picking the launch action of the handler trace. -/
def isLaunchAct : HandlerAction → Bool
  | HandlerAction.launch _ => true
  | _ => false

/-- C9: the synchronous effect trace of POST /api/tests/run registers
the run, then sends the response {runId, status: running}, then launches
the subprocess — the response is emitted after registration and strictly
before the launch, independent of subprocess completion, and at respond
time the registered record carries status running with null end time. -/
theorem async_run_trigger_responds_before_launch
    (suites : List String) (browser mode : String) (now : Nat) (st0 : Store) :
    postTestsRunTrace suites browser mode now =
      [ HandlerAction.register (mkRunId now) ⟨suites, browser, mode⟩,
        HandlerAction.respond (mkRunId now) RunStatus.running,
        HandlerAction.launch (cypressCommand browser (cypressSpecOption suites mode)) ] ∧
    (postTestsRunTrace suites browser mode now).findIdx isRegisterAct = 0 ∧
    (postTestsRunTrace suites browser mode now).findIdx isRespondAct = 1 ∧
    (postTestsRunTrace suites browser mode now).findIdx isLaunchAct = 2 ∧
    (∃ r : RunRecord,
      getRun (createRun st0 (mkRunId now) ⟨suites, browser, mode⟩ now).1 (mkRunId now) =
        some r ∧
      r.status = RunStatus.running ∧ r.endTime = none) := by
  refine ⟨rfl, ?_, ?_, ?_, ⟨_, getRun_createRun st0 (mkRunId now) ⟨suites, browser, mode⟩ now,
    rfl, rfl⟩⟩ <;>
    simp [postTestsRunTrace, List.findIdx, List.findIdx.go, isRegisterAct, isRespondAct,
      isLaunchAct]

/-- C10: when the limit query parameter parses to NaN (a non-numeric
string), the recent-runs endpoint returns the empty array — neither the
default of 10 runs nor an error. -/
theorem nonnumeric_limit_yields_empty_array (st : Store) (s : String)
    (h : jsParseInt s = JSNum.nan) :
    recentEndpoint st (some s) = [] := by
  show getRecentRuns st (jsParseInt s) = []
  rw [h]
  simp [getRecentRuns, jsSliceTo]

/-- Witness for C10: the non-numeric limit string abc on a five-run
registry yields the empty array. -/
theorem nonnumeric_limit_yields_empty_array_witness :
    jsParseInt "abc" = JSNum.nan ∧ recentEndpoint demoStore (some "abc") = [] :=
  ⟨by decide, nonnumeric_limit_yields_empty_array demoStore "abc" (by decide)⟩
